import Mathlib

/-!
Verification of the band-energy analysis and event-detection engine of
quekia-visualizer (`src/components/visuals/audio/useBands.ts`, types from
`src/config/Visual.ts`).

Modelling conventions:
* JavaScript numbers are modelled as exact rationals (`ℚ`).
* `Math.log10` is modelled as an arbitrary function parameter `log10 : ℚ → ℚ`;
  none of the verified properties depend on its values.
* `Record<string, T>` maps are modelled as `String → Option T`
  (a missing key is `none`).
* `performance.now()` is passed in explicitly as the frame timestamp `now`.
-/

namespace Quekia

/-- `BandConfig` from `src/config/Visual.ts` (`refractoryMs?` is optional). -/
structure BandConfig where
  name : String
  lowHz : ℚ
  highHz : ℚ
  absFloor : ℚ
  ratioOn : ℚ
  ratioOff : ℚ
  dbOn : ℚ
  dbOff : ℚ
  refractoryMs : Option ℚ
deriving DecidableEq

/-- `VisualizerConfig` from `src/config/Visual.ts`, restricted to the fields the
engine reads.  `fftSize` is `Option ℚ` so that the falsy/absent case guarded by
`Config.fftSize && ...` in `setupAnalyser` is representable (`none` = absent).
`spectrumSmoothing` stands for `Config.flash.spectrumSmoothing`. -/
structure VisualizerConfig where
  fftSize : Option ℚ
  minDecibels : ℚ
  maxDecibels : ℚ
  emaShortAlpha : ℚ
  emaLongAlpha : ℚ
  StrobeFlashBand : String
  bands : List BandConfig
  spectrumSmoothing : ℚ

/-- `BandSnapshot` from `src/config/Visual.ts`. -/
structure BandSnapshot where
  name : String
  energy : ℚ
  ratio : ℚ
  riseDb : ℚ
  active : Bool
deriving DecidableEq

/-- `hzToBin` (useBands.ts lines 12–16):
nyquist = `sampleRate / 2`, raw bin = `Math.floor((hz / nyquist) * (fftSize / 2))`,
result = `Math.max(0, Math.min(fftSize / 2 - 1, bin))`. -/
def hzToBin (hz sampleRate fftSize : ℚ) : ℚ :=
  let NYQUIST_FREQUENCY := sampleRate / 2
  let BIN_FREQUENCY : ℚ := ((Int.floor ((hz / NYQUIST_FREQUENCY) * (fftSize / 2)) : ℤ) : ℚ)
  max 0 (min (fftSize / 2 - 1) BIN_FREQUENCY)

/-- `BAND_FREQUENCY_LOW` of `bandEnergy` (useBands.ts line 19):
`Math.max(0, Math.min(a, b))` — clamped below at 0 only. -/
def bandLow (a b : ℤ) : ℤ := max 0 (min a b)

/-- `BAND_FREQUENCY_HIGH` of `bandEnergy` (useBands.ts line 20):
`Math.min(data.length - 1, Math.max(a, b))` — clamped above at `length - 1` only. -/
def bandHigh (data : List ℚ) (a b : ℤ) : ℤ :=
  min ((data.length : ℤ) - 1) (max a b)

/-- `bandEnergy` (useBands.ts lines 18–25): sum `data[i]` for
`i = low .. high` (the loop body runs zero times when `low > high`), divided by
`high - low + 1`.  Since `0 ≤ low` and `high ≤ data.length - 1`, the elements
visited are exactly the slice `data[low .. high]`. -/
def bandEnergy (data : List ℚ) (a b : ℤ) : ℚ :=
  let low := bandLow a b
  let high := bandHigh data a b
  let SUM_FREQUENCY := ((data.drop low.toNat).take (high + 1 - low).toNat).sum
  SUM_FREQUENCY / ((high - low + 1 : ℤ) : ℚ)

/-- `AnalyserNode` restricted to the four fields `setupAnalyser` writes. -/
structure AnalyserNode where
  fftSize : ℚ
  minDecibels : ℚ
  maxDecibels : ℚ
  smoothingTimeConstant : ℚ
deriving DecidableEq

/-- The `fftSize` resolution inside `setupAnalyser` (useBands.ts lines 41–44):
`Config.fftSize && Config.fftSize >= 32 && Config.fftSize <= 32768 ? Config.fftSize : 2048`.
A falsy (absent or zero) `fftSize` fails the first conjunct. -/
def resolveFftSize (fftSize : Option ℚ) : ℚ :=
  match fftSize with
  | none => 2048
  | some f => if f ≠ 0 ∧ 32 ≤ f ∧ f ≤ 32768 then f else 2048

/-- Point update of a string-keyed record, modelling `REF_X.current[name] = v`. -/
def updMap {α : Type} (m : String → Option α) (k : String) (v : α) :
    String → Option α :=
  fun n => if n = k then some v else m n

/-- The per-band mutable records of `useBands`
(`REF_EMA_SHORT`, `REF_EMA_LONG`, `REF_STATE`, `REF_LAST_HIT`). -/
structure BandsState where
  emaShort : String → Option ℚ
  emaLong : String → Option ℚ
  active : String → Option Bool
  lastHit : String → Option ℚ

/-- The records as cleared by the mount-time `useEffect`
(useBands.ts lines 124–131): every key absent. -/
def initialBandsState : BandsState :=
  { emaShort := fun _ => none
    emaLong := fun _ => none
    active := fun _ => none
    lastHit := fun _ => none }

/-- One EMA update (useBands.ts lines 75–83): the previous value defaults to the
current energy when the band has never been observed (`?? energy`), then
`(1 - alpha) * prev + alpha * energy`. -/
def emaUpdate (alpha : ℚ) (prev : Option ℚ) (energy : ℚ) : ℚ :=
  (1 - alpha) * prev.getD energy + alpha * energy

/-- The hysteresis transition (useBands.ts lines 91–103).
Returns `(new active flag, raw hit)`.  Inactive: activate (and record a raw hit)
iff `energy >= absFloor && (ratio >= ratioOn || riseDb >= dbOn)`.
Active: deactivate iff `ratio <= ratioOff && riseDb <= dbOff`. -/
def hysteresis (wasActive : Bool) (energy ratio riseDb : ℚ) (band : BandConfig) :
    Bool × Bool :=
  match wasActive with
  | true =>
    if ratio ≤ band.ratioOff ∧ riseDb ≤ band.dbOff then (false, false)
    else (true, false)
  | false =>
    if band.absFloor ≤ energy ∧ (band.ratioOn ≤ ratio ∨ band.dbOn ≤ riseDb) then
      (true, true)
    else (false, false)

/-- The refractory gate (useBands.ts lines 104–107):
`now - (REF_LAST_HIT.current[name] ?? 0) > (band.refractoryMs ?? 0)`. -/
def refractoryOk (now : ℚ) (lastHit : Option ℚ) (refractoryMs : Option ℚ) : Bool :=
  decide (refractoryMs.getD 0 < now - lastHit.getD 0)

/-- Result of the loop body of `step` for one band. -/
structure BandStepResult where
  snap : BandSnapshot
  accepted : Bool
  state : BandsState

/-- The loop body of `step` (useBands.ts lines 65–120) for one band: map the
band's Hz range to bins, compute the band energy, update both EMAs, derive
ratio and dB rise, run the hysteresis machine, gate the raw hit through the
refractory window, and record the accepted trigger's timestamp.  The analyser's
`fftSize` is an even integer in practice, so `hzToBin`'s rational result is an
integer; `Int.floor` makes that index conversion explicit. -/
def stepBand (log10 : ℚ → ℚ) (cfg : VisualizerConfig) (data : List ℚ)
    (sampleRate fftSize now : ℚ) (band : BandConfig) (s : BandsState) :
    BandStepResult :=
  let BIN_FREQUENCY_LOW := Int.floor (hzToBin band.lowHz sampleRate fftSize)
  let BIN_FREQUENCY_HIGH := Int.floor (hzToBin band.highHz sampleRate fftSize)
  let energy := bandEnergy data BIN_FREQUENCY_LOW BIN_FREQUENCY_HIGH
  let EMA_CURRENT_SHORT := emaUpdate cfg.emaShortAlpha (s.emaShort band.name) energy
  let EMA_CURRENT_LONG := emaUpdate cfg.emaLongAlpha (s.emaLong band.name) energy
  let CURRENT_BASELINE := max EMA_CURRENT_LONG (1 / 1000000)
  let CURRENT_RATIO := (EMA_CURRENT_SHORT + 1 / 1000000) / CURRENT_BASELINE
  let RISE_DB := 20 * log10 CURRENT_RATIO
  let wasActive := (s.active band.name).getD false
  let hys := hysteresis wasActive energy CURRENT_RATIO RISE_DB band
  let accepted := hys.2 && refractoryOk now (s.lastHit band.name) band.refractoryMs
  { snap := { name := band.name, energy := energy, ratio := CURRENT_RATIO,
              riseDb := RISE_DB, active := hys.1 }
    accepted := accepted
    state := { emaShort := updMap s.emaShort band.name EMA_CURRENT_SHORT
               emaLong := updMap s.emaLong band.name EMA_CURRENT_LONG
               active := updMap s.active band.name hys.1
               lastHit := if accepted then updMap s.lastHit band.name now
                          else s.lastHit } }

/-- The `for (const band of Config.bands)` loop of `step`: threads the band
state through the bands in configuration order, collects the snapshots, and
ORs the `STROBE_FLASH` contributions (`STROBE_FLASH = true` exactly when an
accepted trigger's band name equals `Config.StrobeFlashBand`). -/
def stepBands (log10 : ℚ → ℚ) (cfg : VisualizerConfig) (data : List ℚ)
    (sampleRate fftSize now : ℚ) :
    List BandConfig → BandsState → List BandSnapshot × Bool × BandsState
  | [], s => ([], false, s)
  | band :: rest, s =>
    let r := stepBand log10 cfg data sampleRate fftSize now band s
    let tail := stepBands log10 cfg data sampleRate fftSize now rest r.state
    (r.snap :: tail.1,
     (r.accepted && (band.name == cfg.StrobeFlashBand)) || tail.2.1,
     tail.2.2)

/-- The engine state owned by `useBands`: the per-band records plus the two
outputs replaced at the end of every `step`
(`REF_SNAP_SHOTS`, `REF_STROBE_FLASH_TRIGGER`). -/
structure EngineState where
  bands : BandsState
  snapshots : List BandSnapshot
  strobeFlash : Bool

/-- The engine state right after mount (useBands.ts lines 124–131). -/
def initialEngineState : EngineState :=
  { bands := initialBandsState, snapshots := [], strobeFlash := false }

/-- `step` (useBands.ts lines 51–122): run the loop over `Config.bands` on the
current frame's data, then replace the snapshot list and the strobe-flash flag
with this frame's values.  The frame inputs (magnitude array, sample rate,
fftSize, timestamp) are explicit parameters. -/
def step (log10 : ℚ → ℚ) (cfg : VisualizerConfig) (data : List ℚ)
    (sampleRate fftSize now : ℚ) (e : EngineState) : EngineState :=
  let r := stepBands log10 cfg data sampleRate fftSize now cfg.bands e.bands
  { bands := r.2.2, snapshots := r.1, strobeFlash := r.2.1 }

/-- `setupAnalyser` (useBands.ts lines 36–49): with no analyser it does
nothing; otherwise it writes the resolved `fftSize`, `minDecibels`,
`maxDecibels` and `flash.spectrumSmoothing` onto the analyser node.  The engine
state is passed through so the theorems can speak about what `setupAnalyser`
does (and does not do) to it: the source function never touches the per-band
records. -/
def setupAnalyser (an : Option AnalyserNode) (cfg : VisualizerConfig)
    (e : EngineState) : Option AnalyserNode × EngineState :=
  match an with
  | none => (none, e)
  | some _ =>
    (some { fftSize := resolveFftSize cfg.fftSize
            minDecibels := cfg.minDecibels
            maxDecibels := cfg.maxDecibels
            smoothingTimeConstant := cfg.spectrumSmoothing }, e)

/-- The names of the bands whose raw hit is accepted by the refractory gate
this frame, in configuration order.  This follows the spec's step 4–5 wording
("the accepted trigger belongs to the band named `StrobeFlashBand`") and is
compared with the flash flag computed by `stepBands`. -/
def stepAcceptedNames (log10 : ℚ → ℚ) (cfg : VisualizerConfig) (data : List ℚ)
    (sampleRate fftSize now : ℚ) :
    List BandConfig → BandsState → List String
  | [], _ => []
  | band :: rest, s =>
    let r := stepBand log10 cfg data sampleRate fftSize now band s
    (if r.accepted then [band.name] else []) ++
      stepAcceptedNames log10 cfg data sampleRate fftSize now rest r.state

/-! Concrete fixtures used to instantiate the theorems below on closed inputs. -/

/-- A concrete stand-in for `Math.log10` (the properties hold for any such
function). -/
def log10zero : ℚ → ℚ := fun _ => 0

/-- A one-bin band whose entry condition is met by any energy (absFloor 0,
ratioOn 1) with a 100ms refractory window. -/
def bandW : BandConfig :=
  { name := "STROBE", lowHz := 0, highHz := 0, absFloor := 0, ratioOn := 1,
    ratioOff := 1/2, dbOn := 5, dbOff := 0, refractoryMs := some 100 }

/-- A single-band configuration whose strobe band is `bandW`. -/
def cfgW : VisualizerConfig :=
  { fftSize := some 2048, minDecibels := -100, maxDecibels := -20,
    emaShortAlpha := 1/2, emaLongAlpha := 1/25, StrobeFlashBand := "STROBE",
    bands := [bandW], spectrumSmoothing := 1/5 }

/-- A one-sample magnitude array with byte value 100. -/
def dataW : List ℚ := [100]

/-- A band with the hysteresis thresholds of the spec's acceptance example
(absFloor 100, ratioOn 1.5, ratioOff 1.1, dbOn 3, dbOff 1). -/
def bandHys : BandConfig :=
  { name := "H", lowHz := 0, highHz := 0, absFloor := 100, ratioOn := 3/2,
    ratioOff := 11/10, dbOn := 3, dbOff := 1, refractoryMs := none }

/-- A concrete analyser node. -/
def anW : AnalyserNode :=
  { fftSize := 2048, minDecibels := -100, maxDecibels := -20,
    smoothingTimeConstant := 1/5 }

/-! Theorems. -/

/-- Helper: a one-element slice of a list at an in-range index. -/
theorem take_one_drop (d : List ℚ) (i : ℕ) (h : i < d.length) :
    (d.drop i).take 1 = [d[i]] := by
  rw [List.drop_eq_getElem_cons h]
  simp only [List.take_succ_cons, List.take_zero]

/-- Helper: `bandEnergy` on a degenerate single-index range returns that
element. -/
theorem bandEnergy_single (d : List ℚ) (i : ℕ) (h : i < d.length) :
    bandEnergy d i i = d.getD i 0 := by
  unfold bandEnergy bandLow bandHigh
  have h1 : min (i:ℤ) i = i := by omega
  have h2 : min ((d.length:ℤ) - 1) (max (i:ℤ) i) = i := by omega
  have h3 : max 0 (i:ℤ) = i := by omega
  simp only [h1, h2, h3]
  have h4 : ((i:ℤ) + 1 - i).toNat = 1 := by omega
  have h6 : ((i:ℤ)).toNat = i := by omega
  simp only [h4, h6]
  rw [take_one_drop d i h, List.getD_eq_getElem d 0 h]
  push_cast
  simp

/-- C1 (counterexample): on the empty array with `a = b = 0` the code computes
`low = 0` and `high = -1`, so the denominator `high - low + 1` is `0`, not
`≥ 1` — the claimed two-sided clamp and the divide-by-zero avoidance on empty
arrays do not hold of `bandEnergy` as written. -/
theorem bandEnergy_empty_denominator_cex :
    bandLow 0 0 = 0 ∧ bandHigh ([] : List ℚ) 0 0 = -1 ∧
    bandHigh ([] : List ℚ) 0 0 - bandLow 0 0 + 1 = 0 ∧
    ¬ (1 ≤ bandHigh ([] : List ℚ) 0 0 - bandLow 0 0 + 1) :=
  ⟨rfl, rfl, rfl, by decide⟩

/-- C1 (amended): `bandEnergy` clamps `low = min(a,b)` below at `0` and
`high = max(a,b)` above at `data.length - 1` (each one-sided).  Whenever both
indices lie in `[0, data.length - 1]`, `low` and `high` are exactly
`min`/`max`, the denominator `high - low + 1` is at least `1`, and the result
is the arithmetic mean of the inclusive slice `data[low..high]`; in particular
`bandEnergy data i i = data[i]` for any in-range `i` (so for index 5 when it is
in range). -/
theorem bandEnergy_inRange_mean (data : List ℚ) (a b : ℤ)
    (ha0 : 0 ≤ a) (hb0 : 0 ≤ b)
    (ha1 : a ≤ (data.length : ℤ) - 1) (hb1 : b ≤ (data.length : ℤ) - 1) :
    bandLow a b = min a b ∧
    bandHigh data a b = max a b ∧
    1 ≤ bandHigh data a b - bandLow a b + 1 ∧
    bandEnergy data a b =
      ((data.drop (min a b).toNat).take ((max a b - min a b).toNat + 1)).sum /
        (((max a b - min a b : ℤ) : ℚ) + 1) ∧
    (∀ (d : List ℚ) (i : ℕ), i < d.length → bandEnergy d i i = d.getD i 0) := by
  have hlow : bandLow a b = min a b := by unfold bandLow; omega
  have hhigh : bandHigh data a b = max a b := by unfold bandHigh; omega
  refine ⟨hlow, hhigh, by omega, ?_, fun d i h => bandEnergy_single d i h⟩
  have h4 : (max a b + 1 - min a b).toNat = (max a b - min a b).toNat + 1 := by
    omega
  have h5 : ((max a b - min a b + 1 : ℤ) : ℚ) = ((max a b - min a b : ℤ) : ℚ) + 1 := by
    push_cast
    ring
  simp only [bandEnergy, hlow, hhigh, h4, h5]

/-- Witness for C1 (amended) at `data = [1, 2, 3]`, `a = 0`, `b = 2`. -/
theorem bandEnergy_inRange_mean_witness :
    bandLow 0 2 = min 0 2 ∧
    bandHigh ([1, 2, 3] : List ℚ) 0 2 = max 0 2 ∧
    1 ≤ bandHigh ([1, 2, 3] : List ℚ) 0 2 - bandLow 0 2 + 1 ∧
    bandEnergy ([1, 2, 3] : List ℚ) 0 2 =
      ((([1, 2, 3] : List ℚ).drop (min 0 2 : ℤ).toNat).take
          ((max 0 2 - min 0 2 : ℤ).toNat + 1)).sum /
        (((max 0 2 - min 0 2 : ℤ) : ℚ) + 1) ∧
    (∀ (d : List ℚ) (i : ℕ), i < d.length → bandEnergy d i i = d.getD i 0) :=
  bandEnergy_inRange_mean [1, 2, 3] 0 2 (by norm_num) (by norm_num)
    (by norm_num) (by norm_num)

/-- C4: starting inactive, the hysteresis machine activates iff
`energy ≥ absFloor` and (`ratio ≥ ratioOn` or `riseDb ≥ dbOn`) — never with
`energy < absFloor`; starting active, it deactivates iff `ratio ≤ ratioOff`
and `riseDb ≤ dbOff`; in every other case the state is unchanged. -/
theorem hysteresis_transition_spec (energy ratio riseDb : ℚ) (band : BandConfig) :
    ((hysteresis false energy ratio riseDb band).1 = true ↔
      band.absFloor ≤ energy ∧ (band.ratioOn ≤ ratio ∨ band.dbOn ≤ riseDb)) ∧
    (energy < band.absFloor → (hysteresis false energy ratio riseDb band).1 = false) ∧
    ((hysteresis true energy ratio riseDb band).1 = false ↔
      ratio ≤ band.ratioOff ∧ riseDb ≤ band.dbOff) ∧
    (∀ was : Bool, (hysteresis was energy ratio riseDb band).1 ≠ was →
      (was = false ∧ band.absFloor ≤ energy ∧
        (band.ratioOn ≤ ratio ∨ band.dbOn ≤ riseDb)) ∨
      (was = true ∧ ratio ≤ band.ratioOff ∧ riseDb ≤ band.dbOff)) := by
  refine ⟨?_, ?_, ?_, ?_⟩
  · show (if band.absFloor ≤ energy ∧ (band.ratioOn ≤ ratio ∨ band.dbOn ≤ riseDb)
        then ((true, true) : Bool × Bool) else (false, false)).1 = true ↔ _
    split_ifs with h
    · exact iff_of_true rfl h
    · exact iff_of_false (by decide) h
  · intro hE
    show (if band.absFloor ≤ energy ∧ (band.ratioOn ≤ ratio ∨ band.dbOn ≤ riseDb)
        then ((true, true) : Bool × Bool) else (false, false)).1 = false
    split_ifs with h
    · exact absurd h.1 (not_le.mpr hE)
    · rfl
  · show (if ratio ≤ band.ratioOff ∧ riseDb ≤ band.dbOff
        then ((false, false) : Bool × Bool) else (true, false)).1 = false ↔ _
    split_ifs with h
    · exact iff_of_true rfl h
    · exact iff_of_false (by decide) h
  · intro was hneq
    cases was with
    | false =>
      left
      refine ⟨rfl, ?_⟩
      have hneq2 : (if band.absFloor ≤ energy ∧ (band.ratioOn ≤ ratio ∨ band.dbOn ≤ riseDb)
          then ((true, true) : Bool × Bool) else (false, false)).1 ≠ false := hneq
      split_ifs at hneq2 with h
      · exact h
      · exact absurd rfl hneq2
    | true =>
      right
      refine ⟨rfl, ?_⟩
      have hneq2 : (if ratio ≤ band.ratioOff ∧ riseDb ≤ band.dbOff
          then ((false, false) : Bool × Bool) else (true, false)).1 ≠ true := hneq
      split_ifs at hneq2 with h
      · exact h
      · exact absurd rfl hneq2

/-- Witness for C4 at the spec's acceptance numbers: with `absFloor = 100`,
energy 200 and ratio 1 (dB rise 0) does not activate, while energy 200 and
ratio 1.6 does. -/
theorem hysteresis_transition_spec_witness :
    (hysteresis false 50 1 0 bandHys).1 = false ∧
    (hysteresis false 200 (8/5) 0 bandHys).1 = true :=
  ⟨(hysteresis_transition_spec 50 1 0 bandHys).2.1 (by norm_num [bandHys]),
   (hysteresis_transition_spec 200 (8/5) 0 bandHys).1.mpr
     (by norm_num [bandHys])⟩

/-- C6: on the first observation of a band (both EMA records absent), the
per-band update stores the observed energy itself as both the short and the
long EMA. -/
theorem stepBand_first_observation_ema (log10 : ℚ → ℚ) (cfg : VisualizerConfig)
    (data : List ℚ) (sampleRate fftSize now : ℚ) (band : BandConfig)
    (s : BandsState)
    (h1 : s.emaShort band.name = none) (h2 : s.emaLong band.name = none) :
    (stepBand log10 cfg data sampleRate fftSize now band s).state.emaShort band.name =
      some ((stepBand log10 cfg data sampleRate fftSize now band s).snap.energy) ∧
    (stepBand log10 cfg data sampleRate fftSize now band s).state.emaLong band.name =
      some ((stepBand log10 cfg data sampleRate fftSize now band s).snap.energy) := by
  constructor <;>
  · simp only [stepBand, emaUpdate, updMap, h1, h2, Option.getD_none, ite_true]
    exact congrArg some (by ring)

/-- Witness for C6: first frame of `bandW` from the freshly mounted state. -/
theorem stepBand_first_observation_ema_witness :
    (stepBand log10zero cfgW dataW 44100 2048 1000 bandW
        initialBandsState).state.emaShort bandW.name =
      some ((stepBand log10zero cfgW dataW 44100 2048 1000 bandW
        initialBandsState).snap.energy) ∧
    (stepBand log10zero cfgW dataW 44100 2048 1000 bandW
        initialBandsState).state.emaLong bandW.name =
      some ((stepBand log10zero cfgW dataW 44100 2048 1000 bandW
        initialBandsState).snap.energy) :=
  stepBand_first_observation_ema log10zero cfgW dataW 44100 2048 1000 bandW
    initialBandsState rfl rfl

/-- C8: `setupAnalyser` substitutes the default 2048 for an absent, zero, or
out-of-range (below 32 or above 32768) `fftSize`; an `fftSize` within
`[32, 32768]` is used as given; setup is a total function and the resolved
value is what it writes to the analyser node. -/
theorem resolveFftSize_spec (x : ℚ) (cfg : VisualizerConfig) (a : AnalyserNode)
    (e : EngineState) :
    resolveFftSize none = 2048 ∧
    resolveFftSize (some 0) = 2048 ∧
    (x < 32 ∨ 32768 < x → resolveFftSize (some x) = 2048) ∧
    (32 ≤ x → x ≤ 32768 → resolveFftSize (some x) = x) ∧
    (setupAnalyser (some a) cfg e).1 =
      some { fftSize := resolveFftSize cfg.fftSize,
             minDecibels := cfg.minDecibels,
             maxDecibels := cfg.maxDecibels,
             smoothingTimeConstant := cfg.spectrumSmoothing } := by
  refine ⟨rfl, by norm_num [resolveFftSize], ?_, ?_, rfl⟩
  · intro h
    have hc : ¬ (x ≠ 0 ∧ 32 ≤ x ∧ x ≤ 32768) := by
      rintro ⟨h0, hl, hr⟩
      rcases h with h | h <;> linarith
    simp [resolveFftSize, hc]
  · intro hl hr
    have h0 : x ≠ 0 := by
      intro h
      rw [h] at hl
      norm_num at hl
    simp [resolveFftSize, h0, hl, hr]

/-- Witness for C8: the out-of-range value 31 is replaced by 2048, the
in-range value 2048 is kept. -/
theorem resolveFftSize_spec_witness :
    resolveFftSize (some 31) = 2048 ∧ resolveFftSize (some 2048) = 2048 :=
  ⟨(resolveFftSize_spec 31 cfgW anW initialEngineState).2.2.1
      (Or.inl (by norm_num)),
   (resolveFftSize_spec 2048 cfgW anW initialEngineState).2.2.2.1
      (by norm_num) (by norm_num)⟩

/-- C9: the per-frame update is deterministic — it is a function of the
configuration, the frame inputs, and the per-band runtime state alone, so two
engine states with equal per-band state (whatever their previous snapshots or
flash flags) yield equal snapshot lists, flash flags, and resulting per-band
state. -/
theorem step_deterministic (log10 : ℚ → ℚ) (cfg : VisualizerConfig)
    (data : List ℚ) (sampleRate fftSize now : ℚ) (e1 e2 : EngineState)
    (h : e1.bands = e2.bands) :
    (step log10 cfg data sampleRate fftSize now e1).snapshots =
      (step log10 cfg data sampleRate fftSize now e2).snapshots ∧
    (step log10 cfg data sampleRate fftSize now e1).strobeFlash =
      (step log10 cfg data sampleRate fftSize now e2).strobeFlash ∧
    (step log10 cfg data sampleRate fftSize now e1).bands =
      (step log10 cfg data sampleRate fftSize now e2).bands := by
  unfold step
  rw [h]
  exact ⟨rfl, rfl, rfl⟩

/-- Witness for C9: two copies of the mounted initial state (one with a stale
snapshot list and a set flash flag) produce identical frame results. -/
theorem step_deterministic_witness :
    (step log10zero cfgW dataW 44100 2048 1000 initialEngineState).snapshots =
      (step log10zero cfgW dataW 44100 2048 1000
        { bands := initialBandsState, snapshots := [], strobeFlash := true }).snapshots ∧
    (step log10zero cfgW dataW 44100 2048 1000 initialEngineState).strobeFlash =
      (step log10zero cfgW dataW 44100 2048 1000
        { bands := initialBandsState, snapshots := [], strobeFlash := true }).strobeFlash ∧
    (step log10zero cfgW dataW 44100 2048 1000 initialEngineState).bands =
      (step log10zero cfgW dataW 44100 2048 1000
        { bands := initialBandsState, snapshots := [], strobeFlash := true }).bands :=
  step_deterministic log10zero cfgW dataW 44100 2048 1000 initialEngineState
    { bands := initialBandsState, snapshots := [], strobeFlash := true } rfl

/-- Helper: the raw-hit output of the hysteresis machine equals "was inactive
and is now active". -/
theorem hysteresis_hit_eq (wasActive : Bool) (energy ratio riseDb : ℚ)
    (band : BandConfig) :
    (hysteresis wasActive energy ratio riseDb band).2 =
      (!wasActive && (hysteresis wasActive energy ratio riseDb band).1) := by
  cases wasActive <;> simp only [hysteresis] <;> split_ifs <;> rfl

/-- C3 (counterexample): with `refractoryMs = 100`, an unset (never-triggered)
`lastTriggerTimestamp` and a qualifying hit at `now = 50`, the code computes
`50 - 0 > 100 = false` and rejects the trigger — the band still transitions to
active but `lastHit` stays unset.  The claim's "an unset lastTriggerTimestamp
satisfies this condition unconditionally (for every value of now)" is false. -/
theorem refractory_unset_rejected_cex :
    initialBandsState.lastHit "STROBE" = none ∧
    bandW.refractoryMs = some 100 ∧
    (initialBandsState.active "STROBE").getD false = false ∧
    (stepBand log10zero cfgW dataW 44100 2048 50 bandW
      initialBandsState).snap.active = true ∧
    (stepBand log10zero cfgW dataW 44100 2048 50 bandW
      initialBandsState).accepted = false ∧
    (stepBand log10zero cfgW dataW 44100 2048 50 bandW
      initialBandsState).state.lastHit "STROBE" = none := by
  refine ⟨rfl, rfl, rfl, ?_, ?_, ?_⟩ <;>
    norm_num [stepBand, cfgW, bandW, dataW, initialBandsState, hzToBin,
      bandEnergy, bandLow, bandHigh, emaUpdate, hysteresis, refractoryOk,
      log10zero]

/-- C3 (amended): a raw hit (inactive band that activates this frame) becomes
an accepted trigger iff `now - lastTriggerTimestamp > refractoryMs`, where an
unset `lastTriggerTimestamp` is treated as `0` (so with no prior accepted
trigger the hit is accepted iff `now > refractoryMs`, not unconditionally); on
acceptance `lastTriggerTimestamp` is set to `now`, on rejection the timestamp
record is left unchanged; and a rejected hit still performs the state
transition (the band becomes active) while emitting no trigger. -/
theorem stepBand_refractory_spec (log10 : ℚ → ℚ) (cfg : VisualizerConfig)
    (data : List ℚ) (sampleRate fftSize now : ℚ) (band : BandConfig)
    (s : BandsState) :
    (stepBand log10 cfg data sampleRate fftSize now band s).accepted =
      ((!(s.active band.name).getD false &&
          (stepBand log10 cfg data sampleRate fftSize now band s).snap.active) &&
        decide (band.refractoryMs.getD 0 < now - (s.lastHit band.name).getD 0)) ∧
    ((stepBand log10 cfg data sampleRate fftSize now band s).accepted = true →
      (stepBand log10 cfg data sampleRate fftSize now band s).state.lastHit
        band.name = some now) ∧
    ((stepBand log10 cfg data sampleRate fftSize now band s).accepted = false →
      (stepBand log10 cfg data sampleRate fftSize now band s).state.lastHit =
        s.lastHit) ∧
    ((!(s.active band.name).getD false &&
        (stepBand log10 cfg data sampleRate fftSize now band s).snap.active) = true →
      (stepBand log10 cfg data sampleRate fftSize now band s).state.active
        band.name = some true) := by
  refine ⟨?_, ?_, ?_, ?_⟩
  · simp only [stepBand]
    rw [hysteresis_hit_eq]
    rfl
  · intro h
    show (if (stepBand log10 cfg data sampleRate fftSize now band s).accepted = true
        then updMap s.lastHit band.name now else s.lastHit) band.name = some now
    rw [if_pos h]
    simp [updMap]
  · intro h
    show (if (stepBand log10 cfg data sampleRate fftSize now band s).accepted = true
        then updMap s.lastHit band.name now else s.lastHit) = s.lastHit
    rw [if_neg (by simp [h])]
  · intro h
    have hact : (stepBand log10 cfg data sampleRate fftSize now band s).snap.active
        = true := by
      simp only [Bool.and_eq_true] at h
      exact h.2
    show updMap s.active band.name
        (stepBand log10 cfg data sampleRate fftSize now band s).snap.active
        band.name = some true
    rw [hact]
    simp [updMap]

/-- Witness for C3 (amended): with `refractoryMs = 100` and an unset timestamp,
the first qualifying hit at `now = 1000` is accepted and stores `1000` as the
last trigger time. -/
theorem stepBand_refractory_spec_witness :
    (stepBand log10zero cfgW dataW 44100 2048 1000 bandW
      initialBandsState).state.lastHit bandW.name = some 1000 :=
  (stepBand_refractory_spec log10zero cfgW dataW 44100 2048 1000 bandW
      initialBandsState).2.1
    (by norm_num [stepBand, cfgW, bandW, dataW, initialBandsState, hzToBin,
      bandEnergy, bandLow, bandHigh, emaUpdate, hysteresis, refractoryOk,
      log10zero])

/-- C5 (counterexample): at `fftSize = 0` the function returns `0`, which is
not within the claimed clamp range `[0, fftSize/2 - 1] = [0, -1]` — "always
returning an in-range index" fails for degenerate `fftSize`. -/
theorem hzToBin_out_of_range_cex :
    hzToBin 0 44100 0 = 0 ∧ ¬ (hzToBin 0 44100 0 ≤ (0 : ℚ) / 2 - 1) := by
  constructor <;> norm_num [hzToBin]

/-- C5 (amended): `hzToBin` computes
`max(0, min(fftSize/2 - 1, floor((hz / (sampleRate/2)) * (fftSize/2))))`; for
every `fftSize ≥ 2` (nonempty clamp range) the result lies in
`[0, fftSize/2 - 1]` for every `hz` and `sampleRate`; and
`hzToBin 0 44100 2048 = 0`, `hzToBin 1e9 44100 2048 = 1023`. -/
theorem hzToBin_spec (hz sampleRate fftSize : ℚ) :
    hzToBin hz sampleRate fftSize =
      max 0 (min (fftSize / 2 - 1)
        ((Int.floor ((hz / (sampleRate / 2)) * (fftSize / 2)) : ℤ) : ℚ)) ∧
    (2 ≤ fftSize → 0 ≤ hzToBin hz sampleRate fftSize ∧
      hzToBin hz sampleRate fftSize ≤ fftSize / 2 - 1) ∧
    hzToBin 0 44100 2048 = 0 ∧
    hzToBin 1000000000 44100 2048 = 1023 := by
  refine ⟨rfl, ?_, by norm_num [hzToBin], by norm_num [hzToBin]⟩
  intro h2
  unfold hzToBin
  constructor
  · exact le_max_left _ _
  · exact max_le (by linarith) (min_le_left _ _)

/-- Witness for C5 (amended) at `hz = 5000`, `sampleRate = 44100`,
`fftSize = 2048`. -/
theorem hzToBin_spec_witness :
    0 ≤ hzToBin 5000 44100 2048 ∧
    hzToBin 5000 44100 2048 ≤ (2048 : ℚ) / 2 - 1 :=
  (hzToBin_spec 5000 44100 2048).2.1 (by norm_num)

/-- Helper: the strobe-flash flag accumulated by the band loop is set iff the
strobe band's name is among this frame's accepted trigger names. -/
theorem stepBands_flash_mem (log10 : ℚ → ℚ) (cfg : VisualizerConfig)
    (data : List ℚ) (sampleRate fftSize now : ℚ) (l : List BandConfig) :
    ∀ s : BandsState,
      ((stepBands log10 cfg data sampleRate fftSize now l s).2.1 = true ↔
        cfg.StrobeFlashBand ∈
          stepAcceptedNames log10 cfg data sampleRate fftSize now l s) := by
  induction l with
  | nil => intro s; simp [stepBands, stepAcceptedNames]
  | cons band rest ih =>
    intro s
    simp only [stepBands, stepAcceptedNames, List.mem_append, Bool.or_eq_true,
      Bool.and_eq_true, beq_iff_eq, ih]
    cases hacc : (stepBand log10 cfg data sampleRate fftSize now band s).accepted
    · simp [hacc]
    · simp [hacc, eq_comm]

/-- C7: after a frame, the session-wide flash flag is set iff an accepted
trigger for a band named `StrobeFlashBand` occurred during that same frame;
the new flag is computed afresh from this frame alone, so a flag set in one
frame never persists into the next frame's output (the previous snapshots and
flag are ignored). -/
theorem step_strobeFlash_iff (log10 : ℚ → ℚ) (cfg : VisualizerConfig)
    (data : List ℚ) (sampleRate fftSize now : ℚ) (e : EngineState) :
    ((step log10 cfg data sampleRate fftSize now e).strobeFlash = true ↔
      cfg.StrobeFlashBand ∈
        stepAcceptedNames log10 cfg data sampleRate fftSize now cfg.bands
          e.bands) ∧
    (∀ (snaps : List BandSnapshot) (fl : Bool),
      (step log10 cfg data sampleRate fftSize now
        { bands := e.bands, snapshots := snaps, strobeFlash := fl }).strobeFlash =
      (step log10 cfg data sampleRate fftSize now e).strobeFlash) :=
  ⟨stepBands_flash_mem log10 cfg data sampleRate fftSize now cfg.bands e.bands,
   fun _ _ => rfl⟩

/-- Helper: one EMA update stays within `[0, 255]` when the smoothing
coefficient is in `[0, 1]` and both the previous value (if any) and the energy
are within `[0, 255]`. -/
theorem emaUpdate_bounds (alpha : ℚ) (prev : Option ℚ) (energy : ℚ)
    (ha0 : 0 ≤ alpha) (ha1 : alpha ≤ 1) (hE0 : 0 ≤ energy) (hE1 : energy ≤ 255)
    (hp : ∀ v, prev = some v → 0 ≤ v ∧ v ≤ 255) :
    0 ≤ emaUpdate alpha prev energy ∧ emaUpdate alpha prev energy ≤ 255 := by
  unfold emaUpdate
  cases prev with
  | none =>
    simp only [Option.getD_none]
    constructor <;> nlinarith
  | some v =>
    obtain ⟨hv0, hv1⟩ := hp v rfl
    simp only [Option.getD_some]
    constructor <;> nlinarith

/-- C10: if both smoothing coefficients are in `[0, 1]`, the band's observed
energy this frame is in `[0, 255]`, and the band's stored EMAs (when present)
are in `[0, 255]`, then after the per-band update both stored EMAs are again in
`[0, 255]`, the snapshot's ratio `(emaShort + 1e-6) / max(emaLong, 1e-6)` is
strictly positive, and the dB rise is `20 * log10 ratio` applied to that
positive ratio — so the logarithm is only ever taken of a positive argument. -/
theorem stepBand_ema_invariant (log10 : ℚ → ℚ) (cfg : VisualizerConfig)
    (data : List ℚ) (sampleRate fftSize now : ℚ) (band : BandConfig)
    (s : BandsState)
    (haS0 : 0 ≤ cfg.emaShortAlpha) (haS1 : cfg.emaShortAlpha ≤ 1)
    (haL0 : 0 ≤ cfg.emaLongAlpha) (haL1 : cfg.emaLongAlpha ≤ 1)
    (hE0 : 0 ≤ (stepBand log10 cfg data sampleRate fftSize now band s).snap.energy)
    (hE1 : (stepBand log10 cfg data sampleRate fftSize now band s).snap.energy ≤ 255)
    (hS : ∀ v, s.emaShort band.name = some v → 0 ≤ v ∧ v ≤ 255)
    (hL : ∀ v, s.emaLong band.name = some v → 0 ≤ v ∧ v ≤ 255) :
    (∃ v, (stepBand log10 cfg data sampleRate fftSize now band s).state.emaShort
        band.name = some v ∧ 0 ≤ v ∧ v ≤ 255) ∧
    (∃ v, (stepBand log10 cfg data sampleRate fftSize now band s).state.emaLong
        band.name = some v ∧ 0 ≤ v ∧ v ≤ 255) ∧
    0 < (stepBand log10 cfg data sampleRate fftSize now band s).snap.ratio ∧
    (stepBand log10 cfg data sampleRate fftSize now band s).snap.riseDb =
      20 * log10
        ((stepBand log10 cfg data sampleRate fftSize now band s).snap.ratio) := by
  have hshort := emaUpdate_bounds cfg.emaShortAlpha (s.emaShort band.name)
    ((stepBand log10 cfg data sampleRate fftSize now band s).snap.energy)
    haS0 haS1 hE0 hE1 hS
  have hlong := emaUpdate_bounds cfg.emaLongAlpha (s.emaLong band.name)
    ((stepBand log10 cfg data sampleRate fftSize now band s).snap.energy)
    haL0 haL1 hE0 hE1 hL
  refine ⟨⟨_, ?_, hshort.1, hshort.2⟩, ⟨_, ?_, hlong.1, hlong.2⟩, ?_, rfl⟩
  · have hm : (stepBand log10 cfg data sampleRate fftSize now band s).state.emaShort
        band.name =
        (if band.name = band.name then
          some (emaUpdate cfg.emaShortAlpha (s.emaShort band.name)
            ((stepBand log10 cfg data sampleRate fftSize now band s).snap.energy))
        else s.emaShort band.name) := rfl
    rw [hm, if_pos rfl]
  · have hm : (stepBand log10 cfg data sampleRate fftSize now band s).state.emaLong
        band.name =
        (if band.name = band.name then
          some (emaUpdate cfg.emaLongAlpha (s.emaLong band.name)
            ((stepBand log10 cfg data sampleRate fftSize now band s).snap.energy))
        else s.emaLong band.name) := rfl
    rw [hm, if_pos rfl]
  · have hr : (stepBand log10 cfg data sampleRate fftSize now band s).snap.ratio =
        (emaUpdate cfg.emaShortAlpha (s.emaShort band.name)
            ((stepBand log10 cfg data sampleRate fftSize now band s).snap.energy) +
          1 / 1000000) /
          max (emaUpdate cfg.emaLongAlpha (s.emaLong band.name)
            ((stepBand log10 cfg data sampleRate fftSize now band s).snap.energy))
            (1 / 1000000) := rfl
    rw [hr]
    apply div_pos
    · have := hshort.1
      linarith
    · exact lt_of_lt_of_le (by norm_num) (le_max_right _ _)

/-- Witness for C10: first frame of `bandW` (alphas 1/2 and 1/25, energy 100)
from the freshly mounted state. -/
theorem stepBand_ema_invariant_witness :
    (∃ v, (stepBand log10zero cfgW dataW 44100 2048 1000 bandW
        initialBandsState).state.emaShort bandW.name = some v ∧ 0 ≤ v ∧ v ≤ 255) ∧
    (∃ v, (stepBand log10zero cfgW dataW 44100 2048 1000 bandW
        initialBandsState).state.emaLong bandW.name = some v ∧ 0 ≤ v ∧ v ≤ 255) ∧
    0 < (stepBand log10zero cfgW dataW 44100 2048 1000 bandW
        initialBandsState).snap.ratio ∧
    (stepBand log10zero cfgW dataW 44100 2048 1000 bandW
        initialBandsState).snap.riseDb =
      20 * log10zero ((stepBand log10zero cfgW dataW 44100 2048 1000 bandW
        initialBandsState).snap.ratio) :=
  stepBand_ema_invariant log10zero cfgW dataW 44100 2048 1000 bandW
    initialBandsState (by norm_num [cfgW]) (by norm_num [cfgW])
    (by norm_num [cfgW]) (by norm_num [cfgW])
    (by norm_num [stepBand, cfgW, bandW, dataW, initialBandsState, hzToBin,
      bandEnergy, bandLow, bandHigh])
    (by norm_num [stepBand, cfgW, bandW, dataW, initialBandsState, hzToBin,
      bandEnergy, bandLow, bandHigh])
    (fun v h => nomatch h) (fun v h => nomatch h)

/-- C2 (code evaluation): `setupAnalyser` passes the per-band runtime state
through untouched — re-applying a configuration does not reset it.  After one
frame that activates `bandW`, sets its EMAs to 100 and its last trigger time to
1000, calling `setupAnalyser` again leaves every one of those values in place;
the records are cleared only by the mount-time effect. -/
theorem setupAnalyser_preserves_band_state :
    (∀ (an : Option AnalyserNode) (cfg : VisualizerConfig) (e : EngineState),
      (setupAnalyser an cfg e).2 = e) ∧
    (step log10zero cfgW dataW 44100 2048 1000
        initialEngineState).bands.active "STROBE" = some true ∧
    (step log10zero cfgW dataW 44100 2048 1000
        initialEngineState).bands.emaShort "STROBE" = some 100 ∧
    (step log10zero cfgW dataW 44100 2048 1000
        initialEngineState).bands.lastHit "STROBE" = some 1000 ∧
    (setupAnalyser (some anW) cfgW
        (step log10zero cfgW dataW 44100 2048 1000 initialEngineState)).2 =
      step log10zero cfgW dataW 44100 2048 1000 initialEngineState := by
  refine ⟨fun an cfg e => ?_, ?_, ?_, ?_, rfl⟩
  · cases an <;> rfl
  all_goals
    norm_num [step, stepBands, stepBand, cfgW, bandW, dataW, initialEngineState,
      initialBandsState, hzToBin, bandEnergy, bandLow, bandHigh, emaUpdate,
      hysteresis, refractoryOk, log10zero, updMap]

end Quekia
